import Mathlib

/-!
Shallow embedding of the multi-tenant todo-list backend
(src/todolist/src): the tenant resolver middleware, the JWT auth
middleware, the tenant-scoped base repository and its per-entity
repositories, and the auth/todo domain services.

Modelling conventions:
* Persistence rows are Lean structures; a database table is a List of rows
  in insertion order.  Prisma findFirst is List.find?, findMany is
  List.filter, count is the length of the filter.
* JS objects passed as Prisma where clauses are structures with one
  Option-valued field per key that the code ever places in such an object
  (none = key absent).  The JS spread "{...where, tenantId}" is the
  structure update that sets the tenantId field, overwriting any previous
  value of that key.
* JS null/undefined are Option.none; a JS falsy test on a value that is a
  string id or an object is an Option.isSome test (ids are never the empty
  string).
* Thrown JS errors become an AppError value returned in Except; the error
  classes of src/utils/errors.js are the constructors.  A reference to an
  identifier that is not in scope in its module (a JS ReferenceError)
  is the referenceError constructor.
* jwt.sign is modelled as carrying its payload; jwt.verify is an
  uninterpreted collaborator parameter returning the payload or an
  expired/malformed failure.  bcrypt.hash is an uninterpreted parameter.
* Stateful operations return the result together with the table contents
  after the call.
-/

namespace TodoApp

/-- Status enum of the Todo model (Prisma enum). -/
inductive TodoStatus where
  | PENDING
  | IN_PROGRESS
  | COMPLETED
  | CANCELLED
deriving DecidableEq

/-- Priority enum of the Todo model (Prisma enum). -/
inductive TodoPriority where
  | LOW
  | MEDIUM
  | HIGH
  | URGENT
deriving DecidableEq

/-- A row of the todo table.  Timestamps are integers (epoch millis). -/
structure Todo where
  id : String
  title : String
  description : Option String := none
  status : TodoStatus
  priority : TodoPriority
  dueDate : Option Int := none
  userId : String
  tenantId : Option String
  todoListId : Option String := none
deriving DecidableEq

/-- A row of the user table. -/
structure User where
  id : String
  email : String
  password : String
  name : String := ""
  role : String
  tenantId : Option String
  isActive : Bool
deriving DecidableEq

/-- A row of the tenant table. -/
structure Tenant where
  id : String
  name : String
  subdomain : String
  isActive : Bool
  primaryColor : Option String := none
  logoUrl : Option String := none
  createdAt : Int := 0
deriving DecidableEq

/-- The error values of src/utils/errors.js, plus a constructor for plain
JS Error values (message only) and one for a JS ReferenceError raised by
evaluating an identifier that is not in scope. -/
inductive AppError where
  | validation (msg : String)
  | notFound (msg : String)
  | unauthorized (msg : String)
  | forbidden (msg : String)
  | conflict (msg : String)
  | tenantNotFound (msg : String)
  | generic (msg : String)
  | referenceError (ident : String)
deriving DecidableEq

/-- True exactly on the NotFoundError constructor. -/
def AppError.isNotFoundError : AppError → Bool
  | .notFound _ => true
  | _ => false

/-- A condition placed under the status key of a where object: either a
bare value (equality) or the Prisma not-form. -/
inductive StatusCond where
  | isEq (s : TodoStatus)
  | isNot (s : TodoStatus)
deriving DecidableEq

/-- A condition placed under the priority key of a where object. -/
inductive PrioCond where
  | isEq (p : TodoPriority)
  | isIn (ps : List TodoPriority)
deriving DecidableEq

/-- A Prisma range object placed under the dueDate key. -/
structure DueCond where
  gte : Option Int := none
  lte : Option Int := none
  lt : Option Int := none
deriving DecidableEq

/-- A where object for the todo model: one optional field per key that the
source ever writes into a todo where clause. -/
structure TodoWhere where
  id : Option String := none
  userId : Option String := none
  tenantId : Option String := none
  status : Option StatusCond := none
  priority : Option PrioCond := none
  dueDate : Option DueCond := none
  todoListId : Option String := none
deriving DecidableEq

/-- Condition of a string-equality key that may be absent. -/
def condEqStr (c : Option String) (x : String) : Bool :=
  match c with
  | none => true
  | some v => x == v

/-- Condition of a string-equality key matched against a nullable
column. -/
def condEqOptStr (c : Option String) (x : Option String) : Bool :=
  match c with
  | none => true
  | some v => x == some v

/-- Condition of a Bool-equality key that may be absent. -/
def condEqBool (c : Option Bool) (x : Bool) : Bool :=
  match c with
  | none => true
  | some v => x == v

/-- Condition of the status key. -/
def condStatus (c : Option StatusCond) (x : TodoStatus) : Bool :=
  match c with
  | none => true
  | some (.isEq s) => x == s
  | some (.isNot s) => x != s

/-- Condition of the priority key. -/
def condPrio (c : Option PrioCond) (x : TodoPriority) : Bool :=
  match c with
  | none => true
  | some (.isEq p) => x == p
  | some (.isIn ps) => ps.contains x

/-- Condition of the dueDate range key (a row with a null dueDate matches
no range condition). -/
def condDue (c : Option DueCond) (x : Option Int) : Bool :=
  match c with
  | none => true
  | some rng =>
    match x with
    | none => false
    | some d =>
      (match rng.gte with | none => true | some b => decide (b ≤ d)) &&
      (match rng.lte with | none => true | some b => decide (d ≤ b)) &&
      (match rng.lt with | none => true | some b => decide (d < b))

/-- Store evaluation of a todo where clause against a row: the conjunction
of the conditions of the present keys. -/
def TodoWhere.sem (w : TodoWhere) (t : Todo) : Bool :=
  condEqStr w.id t.id &&
  condEqStr w.userId t.userId &&
  condEqOptStr w.tenantId t.tenantId &&
  condStatus w.status t.status &&
  condPrio w.priority t.priority &&
  condDue w.dueDate t.dueDate &&
  condEqOptStr w.todoListId t.todoListId

/-- A where object for the user model. -/
structure UserWhere where
  id : Option String := none
  email : Option String := none
  tenantId : Option String := none
  role : Option String := none
  isActive : Option Bool := none
deriving DecidableEq

/-- Store evaluation of a user where clause against a row. -/
def UserWhere.sem (w : UserWhere) (u : User) : Bool :=
  condEqStr w.id u.id &&
  condEqStr w.email u.email &&
  condEqOptStr w.tenantId u.tenantId &&
  condEqStr w.role u.role &&
  condEqBool w.isActive u.isActive

/-- A where object for the tenant model.  The tenant table has no tenantId
column; the tenantId field below exists only because the generic
addTenantFilter could in principle write that key, which never happens
because the tenant repository always passes a null tenant id.  Such a key
would be rejected by the store, so its semantics is unsatisfiable. -/
structure TenantWhere where
  id : Option String := none
  subdomain : Option String := none
  isActive : Option Bool := none
  tenantId : Option String := none
deriving DecidableEq

/-- Store evaluation of a tenant where clause against a row. -/
def TenantWhere.sem (w : TenantWhere) (t : Tenant) : Bool :=
  condEqStr w.id t.id &&
  condEqStr w.subdomain t.subdomain &&
  condEqBool w.isActive t.isActive &&
  (match w.tenantId with | none => true | some _ => false)

/-- The kinds of data a Prisma model binding supplies to the generic
BaseRepository of src/repositories/baseRepository.js: the model name, how
the store evaluates a where object of that model against a row, the where
object literals the repository itself writes, the JS spread that sets the
tenantId key, and the primary key of the row. -/
structure RepoModel (R W : Type) where
  modelName : String
  emptyW : W
  idOnly : String → W
  setTenantKey : W → String → W
  getTenantKey : W → Option String
  sem : W → R → Bool
  rowId : R → String

/-- The Prisma binding for the todo model. -/
def todoRepoM : RepoModel Todo TodoWhere where
  modelName := "todo"
  emptyW := {}
  idOnly i := { id := some i }
  setTenantKey w t := { w with tenantId := some t }
  getTenantKey w := w.tenantId
  sem := TodoWhere.sem
  rowId := Todo.id

/-- The Prisma binding for the user model. -/
def userRepoM : RepoModel User UserWhere where
  modelName := "user"
  emptyW := {}
  idOnly i := { id := some i }
  setTenantKey w t := { w with tenantId := some t }
  getTenantKey w := w.tenantId
  sem := UserWhere.sem
  rowId := User.id

/-- The Prisma binding for the tenant model. -/
def tenantRepoM : RepoModel Tenant TenantWhere where
  modelName := "tenant"
  emptyW := {}
  idOnly i := { id := some i }
  setTenantKey w t := { w with tenantId := some t }
  getTenantKey w := w.tenantId
  sem := TenantWhere.sem
  rowId := Tenant.id

/-- baseRepository.js addTenantFilter: with no tenant id the where clause
is returned unchanged; with a tenant id and a null where clause the result
is the object with only the tenantId key; otherwise the spread
"{...where, tenantId}" sets (and overwrites) the tenantId key. -/
def addTenantFilter (M : RepoModel R W) (w : Option W) (tenantId : Option String) : Option W :=
  match tenantId with
  | none => w
  | some t =>
    match w with
    | none => some (M.setTenantKey M.emptyW t)
    | some w0 => some (M.setTenantKey w0 t)

/-- Prisma evaluation of an optional where clause (an absent where clause
matches every row). -/
def semOpt (M : RepoModel R W) (w : Option W) (r : R) : Bool :=
  match w with
  | none => true
  | some w0 => M.sem w0 r

namespace BaseRepository

/-- The where clause findById passes to the store (its first line). -/
def findByIdWhere (M : RepoModel R W) (id : String) (tenantId : Option String) : Option W :=
  addTenantFilter M (some (M.idOnly id)) tenantId

/-- baseRepository.js findById: findFirst under the tenant-filtered
id clause. -/
def findById (M : RepoModel R W) (id : String) (tenantId : Option String) (rows : List R) : Option R :=
  rows.find? (semOpt M (findByIdWhere M id tenantId))

/-- The where clause findOne passes to the store. -/
def findOneWhere (M : RepoModel R W) (w : Option W) (tenantId : Option String) : Option W :=
  addTenantFilter M w tenantId

/-- baseRepository.js findOne. -/
def findOne (M : RepoModel R W) (w : Option W) (tenantId : Option String) (rows : List R) : Option R :=
  rows.find? (semOpt M (findOneWhere M w tenantId))

/-- The where clause findMany passes to the store. -/
def findManyWhere (M : RepoModel R W) (w : Option W) (tenantId : Option String) : Option W :=
  addTenantFilter M w tenantId

/-- baseRepository.js findMany. -/
def findMany (M : RepoModel R W) (w : Option W) (tenantId : Option String) (rows : List R) : List R :=
  rows.filter (semOpt M (findManyWhere M w tenantId))

/-- The where clause count passes to the store. -/
def countWhere (M : RepoModel R W) (w : Option W) (tenantId : Option String) : Option W :=
  addTenantFilter M w tenantId

/-- baseRepository.js count. -/
def count (M : RepoModel R W) (w : Option W) (tenantId : Option String) (rows : List R) : Nat :=
  (rows.filter (semOpt M (countWhere M w tenantId))).length

/-- baseRepository.js update: re-read under the tenant-filtered id clause;
when absent fail with a plain JS Error whose message is the model name
followed by " not found", leaving the table untouched; otherwise perform
the Prisma update keyed on the id alone. -/
def update (M : RepoModel R W) (id : String) (upd : R → R) (tenantId : Option String) (rows : List R) : Except AppError R × List R :=
  let w := addTenantFilter M (some (M.idOnly id)) tenantId
  match rows.find? (semOpt M w) with
  | none => (.error (.generic (M.modelName ++ (" not found"))), rows)
  | some _ =>
    match rows.find? (fun r => M.rowId r == id) with
    | none => (.error (.generic ("Record to update not found")), rows)
    | some r0 => (.ok (upd r0), rows.map (fun r => if M.rowId r == id then upd r else r))

/-- baseRepository.js delete: same re-read as update, then the Prisma
delete keyed on the id alone. -/
def delete (M : RepoModel R W) (id : String) (tenantId : Option String) (rows : List R) : Except AppError R × List R :=
  let w := addTenantFilter M (some (M.idOnly id)) tenantId
  match rows.find? (semOpt M w) with
  | none => (.error (.generic (M.modelName ++ (" not found"))), rows)
  | some _ =>
    match rows.find? (fun r => M.rowId r == id) with
    | none => (.error (.generic ("Record to delete not found")), rows)
    | some r0 => (.ok r0, rows.filter (fun r => !(M.rowId r == id)))

/-- Pagination metadata of findPaginated. -/
structure Pagination where
  total : Nat
  page : Nat
  pageSize : Nat
  totalPages : Nat
deriving DecidableEq

/-- Result of findPaginated. -/
structure Paginated (R : Type) where
  data : List R
  pagination : Pagination

/-- The where clause findPaginated passes to the store. -/
def findPaginatedWhere (M : RepoModel R W) (w : Option W) (tenantId : Option String) : Option W :=
  addTenantFilter M w tenantId

/-- The rows of the table matching the where clause findPaginated passes,
in store order: the population the page is cut from. -/
def paginatedMatches (M : RepoModel R W) (w : Option W) (tenantId : Option String) (rows : List R) : List R :=
  rows.filter (semOpt M (findPaginatedWhere M w tenantId))

/-- baseRepository.js findPaginated: skip (page-1)*pageSize matching rows,
take pageSize of them, and report total and totalPages.  Math.ceil of
total/pageSize is the rounded-up natural division (the code is only ever
called with pageSize at least 1). -/
def findPaginated (M : RepoModel R W) (w : Option W) (tenantId : Option String) (page pageSize : Nat) (rows : List R) : Paginated R :=
  let fw := findPaginatedWhere M w tenantId
  let skip := (page - 1) * pageSize
  let matching := rows.filter (semOpt M fw)
  { data := (matching.drop skip).take pageSize
    pagination :=
      { total := matching.length
        page := page
        pageSize := pageSize
        totalPages := (matching.length + pageSize - 1) / pageSize } }

end BaseRepository

/-- The payload of a JWT issued or accepted by this application: access
tokens carry userId, tenantId and role (utils/jwt.js generateToken calls
in authService.js); password-reset tokens carry userId and purpose. -/
structure TokenPayload where
  userId : String
  tenantId : Option String := none
  role : Option String := none
  purpose : Option String := none
deriving DecidableEq

/-- Outcome of jwt.verify on a token string: the decoded payload, or the
TokenExpiredError / JsonWebTokenError failure classes. -/
inductive VerifyResult where
  | ok (payload : TokenPayload)
  | expired
  | malformed
deriving DecidableEq

/-- The user projection that the auth middleware selects from the store
and attaches to the request. -/
structure AuthUserView where
  id : String
  email : String
  name : String
  role : String
  tenantId : Option String
deriving DecidableEq

/-- The projection applied by the select clause of the auth middleware. -/
def User.view (u : User) : AuthUserView :=
  { id := u.id, email := u.email, name := u.name, role := u.role, tenantId := u.tenantId }

/-- The per-request mutable state the middlewares read and write.  In the
source these are fields dynamically added to the Express request object;
a field that has never been assigned is undefined, which the code only
ever consumes through falsy tests, so isMainDomain is a Bool that starts
out false and the others are Options that start out none. -/
structure Req where
  hostname : String := ""
  authHeader : Option String := none
  isMainDomain : Bool := false
  tenantId : Option String := none
  tenant : Option Tenant := none
  user : Option AuthUserView := none
  userId : Option String := none
deriving DecidableEq

/-- What a middleware does with a request: call next with the (possibly
mutated) request, or send an error response with a status code and an
error label, the request left as it was at that point. -/
inductive MwResult where
  | next (req : Req)
  | send (status : Nat) (error : String) (req : Req)
deriving DecidableEq

/-- The configuration fields of config/environment.js that the
middlewares consult. -/
structure AppConfig where
  mainDomain : String
  nodeEnv : String
deriving DecidableEq

/-- Splitting a character list at every occurrence of a separator
character, the splitting step of the JS String.prototype.split calls of
the source (both call sites use a one-character separator). -/
def splitChar (c : Char) : List Char → List (List Char)
  | [] => [[]]
  | a :: as =>
    let r := splitChar c as
    if a == c then [] :: r
    else
      match r with
      | [] => [[a]]
      | h :: t => (a :: h) :: t

/-- JS String.prototype.split with a one-character separator. -/
def jsSplit (s : String) (c : Char) : List String :=
  (splitChar c s.data).map (fun l => ⟨l⟩)

/-- Whether the second character list begins with the first. -/
def charListBeginsWith : List Char → List Char → Bool
  | [], _ => true
  | _ :: _, [] => false
  | a :: as, b :: bs => a == b && charListBeginsWith as bs

/-- JS String.prototype.startsWith. -/
def jsStartsWith (s pat : String) : Bool :=
  charListBeginsWith pat.data s.data

/-- Whether the pattern occurs in the list at any position. -/
def charListHasSub : List Char → List Char → Bool
  | [], pat => pat.isEmpty
  | a :: rest, pat => charListBeginsWith pat (a :: rest) || charListHasSub rest pat

/-- JS String.prototype.includes, used as hostname.includes with a fixed
non-empty pattern: true when the pattern occurs as a substring. -/
def strIncludes (s pat : String) : Bool :=
  charListHasSub s.data pat.data

/-- A JS whitespace character as far as trim is concerned. -/
def isWsChar (c : Char) : Bool :=
  c == (' ') || c == ('\t') || c == ('\n') || c == ('\r')

/-- JS String.prototype.trim: strip whitespace from both ends. -/
def jsTrim (s : String) : String :=
  ⟨(((s.data.dropWhile isWsChar).reverse.dropWhile isWsChar).reverse)⟩

/-- The main-domain test of middleware/tenant.js: the hostname equals the
configured main domain, or contains the development bypass substring. -/
def isMainHost (cfg : AppConfig) (hostname : String) : Bool :=
  hostname == cfg.mainDomain || strIncludes hostname ("localhost")

/-- The leftmost dot-separated label of the hostname (hostname.split
followed by taking index 0; a hostname is a non-empty string, so the
split is non-empty and index 0 exists). -/
def subdomainOf (hostname : String) : String :=
  (jsSplit hostname ('.')).headD ""

/-- The store query of the development default-tenant branch: findFirst
over tenants with isActive true ordered by createdAt ascending, that is
the earliest-created active tenant (first in insertion order on ties). -/
def firstActiveByCreatedAt (tenants : List Tenant) : Option Tenant :=
  (tenants.filter (fun t => t.isActive)).foldl
    (fun acc t =>
      match acc with
      | none => some t
      | some b => if t.createdAt < b.createdAt then some t else acc)
    none

/-- middleware/tenant.js tenantMiddleware: on the main domain (or a
development bypass host) mark the request main-domain, in development
mode additionally attaching a default tenant when one exists; otherwise
resolve the leftmost hostname label against the tenant table requiring
isActive, attach the tenant on success, and answer 404 Tenant not found
when the lookup fails. -/
def tenantMiddleware (cfg : AppConfig) (tenants : List Tenant) (req : Req) : MwResult :=
  let hostname := req.hostname
  if isMainHost cfg hostname then
    if cfg.nodeEnv == ("development") then
      match firstActiveByCreatedAt tenants with
      | some dt => .next { req with tenant := some dt, tenantId := some dt.id, isMainDomain := true }
      | none => .next { req with isMainDomain := true }
    else
      .next { req with isMainDomain := true }
  else
    let sub := subdomainOf hostname
    match tenants.find? (fun t => t.subdomain == sub && t.isActive) with
    | none => .send 404 ("Tenant not found") req
    | some t => .next { req with tenant := some t, tenantId := some t.id, isMainDomain := false }

/-- middleware/auth.js authMiddleware: extract the bearer token, verify
it, load the claimed user requiring isActive, enforce the tenant-match
rule off the main domain, and attach the user projection on success.
The failure branches reproduce the catch block of the source: 401 for a
missing token, an invalid or expired token, or an unknown/inactive user,
and 403 when the user does not belong to the resolved tenant. -/
def authMiddleware (verify : String → VerifyResult) (users : List User) (req : Req) : MwResult :=
  match req.authHeader with
  | none => .send 401 ("UnauthorizedError") req
  | some h =>
    if !(jsStartsWith h ("Bearer ")) then
      .send 401 ("UnauthorizedError") req
    else
      let token := (jsSplit h (' ')).getD 1 ""
      match verify token with
      | .malformed => .send 401 ("Invalid token") req
      | .expired => .send 401 ("Token expired") req
      | .ok payload =>
        match users.find? (fun u => u.id == payload.userId && u.isActive) with
        | none => .send 401 ("UnauthorizedError") req
        | some u =>
          if !req.isMainDomain && u.tenantId != req.tenantId then
            .send 403 ("ForbiddenError") req
          else
            .next { req with user := some (User.view u), userId := some u.id }

namespace UserRepository

/-- userRepository.js findByEmail: findOne on the email key. -/
def findByEmail (email : String) (tenantId : Option String) (users : List User) : Option User :=
  BaseRepository.findOne userRepoM (some { email := some email }) tenantId users

/-- The data object authService.js registerUser passes to the user
repository create. -/
structure UserCreateData where
  email : String
  password : String
  name : String
  role : String
deriving DecidableEq

/-- baseRepository.js create for the user model: the tenant id is stamped
onto the data when one is supplied (the user model has a tenantId field);
the store assigns the fresh id and defaults isActive to true. -/
def createRow (d : UserCreateData) (tenantId : Option String) (newId : String) : User :=
  { id := newId
    email := d.email
    password := d.password
    name := d.name
    role := d.role
    tenantId := tenantId
    isActive := true }

/-- userRepository.js updatePassword: a direct Prisma update keyed on the
user id with no tenant filter; Prisma fails when no row has that id. -/
def updatePassword (userId : String) (hashedPassword : String) (users : List User) : Except AppError Unit × List User :=
  match users.find? (fun u => u.id == userId) with
  | none => (.error (.generic ("Record to update not found")), users)
  | some _ =>
    (.ok (), users.map (fun u => if u.id == userId then { u with password := hashedPassword } else u))

end UserRepository

/-- The payload of the access token authService.js issues: userId,
tenantId and role of the user. -/
def accessTokenFor (u : User) : TokenPayload :=
  { userId := u.id, tenantId := u.tenantId, role := some u.role }

namespace AuthService

/-- The registration input of authService.js registerUser. -/
structure RegisterInput where
  email : String
  password : String
  name : String
deriving DecidableEq

/-- authService.js registerUser: reject with ConflictError when the email
already exists within the tenant, otherwise create the user with the
bcrypt hash of the password and the default role USER and issue the
access token.  hashF is the bcrypt collaborator; newId the id the store
assigns. -/
def registerUser (hashF : String → String) (newId : String) (d : RegisterInput) (tenantId : Option String) (users : List User) : Except AppError (User × TokenPayload) × List User :=
  match UserRepository.findByEmail d.email tenantId users with
  | some _ => (.error (.conflict ("Email already registered in this organization")), users)
  | none =>
    let hashed := hashF d.password
    let u := UserRepository.createRow
      { email := d.email, password := hashed, name := d.name, role := ("USER") } tenantId newId
    (.ok (u, accessTokenFor u), users ++ [u])

/-- authService.js resetPassword: verify the reset token, require the
password-reset purpose, hash the new password and update the user keyed
on the userId of the token only; every failure inside the try block surfaces
as ValidationError Invalid or expired reset token. -/
def resetPassword (verify : String → VerifyResult) (hashF : String → String) (resetToken newPassword : String) (users : List User) : Except AppError Bool × List User :=
  match verify resetToken with
  | .expired => (.error (.validation ("Invalid or expired reset token")), users)
  | .malformed => (.error (.validation ("Invalid or expired reset token")), users)
  | .ok payload =>
    if payload.purpose != some ("password-reset") then
      (.error (.validation ("Invalid or expired reset token")), users)
    else
      match UserRepository.updatePassword payload.userId (hashF newPassword) users with
      | (.ok _, users') => (.ok true, users')
      | (.error _, users') => (.error (.validation ("Invalid or expired reset token")), users')

end AuthService

/-- controllers/authController.js resetPassword: reads only the token
path parameter and the password body field; the tenant context of the request
is passed in here to record that the handler never consults it. -/
def resetPasswordHandler (verify : String → VerifyResult) (hashF : String → String) (_tenantCtx : Option String) (token : String) (password : Option String) (users : List User) : (Nat × String) × List User :=
  match password with
  | none => ((400, ("Validation Error")), users)
  | some pw =>
    match AuthService.resetPassword verify hashF token pw users with
    | (.ok _, users') => ((200, ("Password reset successful")), users')
    | (.error (.validation _), users') => ((400, ("Validation Error")), users')
    | (.error _, users') => ((500, ("Internal Server Error")), users')

namespace TodoRepository

/-- The statistics record returned by todoRepository.js getStatistics.
The completion rate is exact rational arithmetic (JS numbers on these
small counts behave identically). -/
structure Stats where
  total : Nat
  completed : Nat
  inProgress : Nat
  pending : Nat
  overdue : Nat
  highPriority : Nat
  completionRate : ℚ
deriving DecidableEq

/-- The JS spread of an optional where object: spreading undefined gives
the empty object. -/
def spreadBase (w : Option TodoWhere) : TodoWhere :=
  w.getD {}

/-- todoRepository.js getStatistics: tenant-filter the userId clause
once, then run six counts, each of which extends the filtered clause with
further keys by spread; todayMs is the current time the code takes with
new Date().  The completion rate is completed/total times 100, and 0 when
total is 0. -/
def getStatistics (userId : String) (tenantId : Option String) (todayMs : Int) (rows : List Todo) : Stats :=
  let w := addTenantFilter todoRepoM (some { userId := some userId }) tenantId
  let b := spreadBase w
  let total := BaseRepository.count todoRepoM w tenantId rows
  let completed := BaseRepository.count todoRepoM
    (some { b with status := some (.isEq .COMPLETED) }) tenantId rows
  let inProgress := BaseRepository.count todoRepoM
    (some { b with status := some (.isEq .IN_PROGRESS) }) tenantId rows
  let pending := BaseRepository.count todoRepoM
    (some { b with status := some (.isEq .PENDING) }) tenantId rows
  let overdue := BaseRepository.count todoRepoM
    (some { b with dueDate := some { lt := some todayMs }, status := some (.isNot .COMPLETED) }) tenantId rows
  let highPriority := BaseRepository.count todoRepoM
    (some { b with priority := some (.isIn [.HIGH, .URGENT]), status := some (.isNot .COMPLETED) }) tenantId rows
  { total := total
    completed := completed
    inProgress := inProgress
    pending := pending
    overdue := overdue
    highPriority := highPriority
    completionRate := if 0 < total then ((completed : ℚ) / (total : ℚ)) * 100 else 0 }

/-- The count of CANCELLED todos in the same snapshot getStatistics reads:
the tenant-filtered userId clause extended with a CANCELLED status key,
counted the same way the other status counts are (this query does not
appear in the source; it names the remaining status class of the
invariant). -/
def cancelledCount (userId : String) (tenantId : Option String) (rows : List Todo) : Nat :=
  let w := addTenantFilter todoRepoM (some { userId := some userId }) tenantId
  BaseRepository.count todoRepoM
    (some { spreadBase w with status := some (.isEq .CANCELLED) }) tenantId rows

end TodoRepository

namespace TodoService

/-- todoService.js getTodoById: load the todo tenant-scoped, NotFoundError
when absent, then check ownership.  The ownership branch of the source
evaluates the identifier ForbiddenError, which todoService.js never
brings into scope (line 4 imports only ValidationError and NotFoundError
from utils/errors), so reaching that branch raises a JS ReferenceError instead
of a ForbiddenError. -/
def getTodoById (todoId userId : String) (tenantId : Option String) (rows : List Todo) : Except AppError Todo :=
  match BaseRepository.findById todoRepoM todoId tenantId rows with
  | none => .error (.notFound ("Todo not found"))
  | some todo =>
    if todo.userId != userId then
      .error (.referenceError ("ForbiddenError"))
    else
      .ok todo

/-- The update body of a PATCH on a todo, restricted to the fields the
claims exercise; an absent field leaves the stored value in place. -/
structure TodoPatch where
  title : Option String := none
  description : Option String := none
  priority : Option TodoPriority := none
  dueDate : Option Int := none
deriving DecidableEq

/-- Application of a patch to a row by the store. -/
def applyPatch (p : TodoPatch) (t : Todo) : Todo :=
  { t with
    title := p.title.getD t.title
    description := match p.description with | none => t.description | some d => some d
    priority := p.priority.getD t.priority
    dueDate := match p.dueDate with | none => t.dueDate | some d => some d }

/-- todoService.js updateTodo: ownership check through getTodoById, then
the title-empty validation, then the tenant-scoped repository update. -/
def updateTodo (todoId : String) (p : TodoPatch) (userId : String) (tenantId : Option String) (rows : List Todo) : Except AppError Todo × List Todo :=
  match getTodoById todoId userId tenantId rows with
  | .error e => (.error e, rows)
  | .ok _ =>
    if (match p.title with | some s => jsTrim s == ("") | none => false) then
      (.error (.validation ("Title cannot be empty")), rows)
    else
      BaseRepository.update todoRepoM todoId (applyPatch p) tenantId rows

/-- todoService.js deleteTodo: ownership check through getTodoById, then
the tenant-scoped repository delete. -/
def deleteTodo (todoId userId : String) (tenantId : Option String) (rows : List Todo) : Except AppError Todo × List Todo :=
  match getTodoById todoId userId tenantId rows with
  | .error e => (.error e, rows)
  | .ok _ => BaseRepository.delete todoRepoM todoId tenantId rows

end TodoService

/-- Concrete todo row used by the closed instances below: todo t1 of
tenant A owned by user u1, still pending. -/
def sampleTodoA : Todo :=
  { id := ("t1"), title := ("a"), status := .PENDING, priority := .MEDIUM,
    userId := ("u1"), tenantId := some ("A") }

/-- Concrete user row used by the closed instances below: active user u1
of tenant acme. -/
def sampleUser : User :=
  { id := ("u1"), email := ("a@x.com"), password := ("h"), role := ("USER"),
    tenantId := some ("acme"), isActive := true }

/-- Concrete request used by the closed instances below: resolved off the
main domain to tenant acme, carrying a bearer token. -/
def sampleReq : Req :=
  { authHeader := some ("Bearer tok"), isMainDomain := false, tenantId := some ("acme") }

/-- Concrete token verifier used by the closed instances below: accepts
exactly the token string tok as user u1. -/
def sampleVerify : String → VerifyResult :=
  fun s => if s == ("tok") then .ok { userId := ("u1") } else .malformed

/-- Concrete tenant row used by the closed instances below. -/
def sampleTenant : Tenant :=
  { id := ("tid1"), name := ("Acme"), subdomain := ("acme"), isActive := true }

/-- Concrete configuration used by the closed instances below. -/
def sampleCfg : AppConfig :=
  { mainDomain := ("app.com"), nodeEnv := ("production") }

/-- Concrete unauthenticated request on the acme subdomain, used by the
closed instances below. -/
def sampleHostReq : Req :=
  { hostname := ("acme.app.com") }

/-- Concrete stand-in for the bcrypt collaborator used by the closed
instances below. -/
def sampleHash : String → String :=
  fun s => ("h:") ++ s

/-- Concrete reset-token verifier used by the closed instances below:
accepts exactly the token rtok as a password-reset token for user u1. -/
def sampleResetVerify : String → VerifyResult :=
  fun s =>
    if s == ("rtok") then .ok { userId := ("u1"), purpose := some ("password-reset") }
    else .malformed

/-! Shared helper lemmas. -/

/-- A find? over a list returns the unique element satisfying the
predicate. -/
theorem find?_eq_some_of_unique {α : Type} {p : α → Bool} {l : List α} {a : α}
    (ha : a ∈ l) (hpa : p a = true)
    (huniq : ∀ b ∈ l, p b = true → b = a) : l.find? p = some a := by
  induction l with
  | nil => cases ha
  | cons x xs ih =>
    by_cases hx : p x = true
    · have hxa : x = a := huniq x (List.mem_cons_self x xs) hx
      subst hxa
      simp [List.find?, hx]
    · have hxf : p x = false := by
        cases hpx : p x with
        | true => exact absurd hpx hx
        | false => rfl
      have hmem : a ∈ xs := by
        rcases List.mem_cons.mp ha with h1 | h1
        · subst h1; exact absurd hpa hx
        · exact h1
      simp only [List.find?, hxf]
      exact ih hmem (fun b hb hpb => huniq b (List.mem_cons_of_mem x hb) hpb)

/-- Boolean shuffle used to relate an augmented where clause to the plain
clause conjoined with the tenant equality. -/
theorem bool_tenant_shuffle (a b c d e f g : Bool) :
    (a && b && g && c && d && e && f) = ((a && b && true && c && d && e && f) && g) := by
  revert a b c d e f g
  decide

/-- A find? over an appended singleton: when nothing in the front list
matches and the appended element does, it is found. -/
theorem find?_append_singleton {α : Type} {p : α → Bool} {l1 : List α} {a : α}
    (h1 : ∀ b ∈ l1, ¬ p b = true) (hpa : p a = true) :
    (l1 ++ [a]).find? p = some a := by
  induction l1 with
  | nil => simp [List.find?, hpa]
  | cons x xs ih =>
    have hx : p x = false := by
      cases hpx : p x with
      | false => rfl
      | true => exact absurd hpx (h1 x (List.mem_cons_self x xs))
    simp only [List.cons_append, List.find?, hx]
    exact ih (fun b hb => h1 b (List.mem_cons_of_mem x hb))

/-- The user-by-email lookup misses when no user of the tenant has the
email. -/
theorem findByEmail_eq_none {e t : String} {users : List User}
    (h : ∀ u ∈ users, u.email = e → u.tenantId ≠ some t) :
    UserRepository.findByEmail e (some t) users = none := by
  unfold UserRepository.findByEmail BaseRepository.findOne
  rw [List.find?_eq_none]
  intro x hx hpx
  simp only [semOpt, BaseRepository.findOneWhere, addTenantFilter, userRepoM, UserWhere.sem,
    condEqStr, condEqOptStr, condEqBool, Bool.and_eq_true, beq_iff_eq] at hpx
  exact h x hx hpx.1.1.1.2 hpx.1.1.2

/-- Bounds pinning down the rounded-up natural division. -/
theorem ceil_div_bounds (total ps : Nat) (hps : 1 ≤ ps) :
    total ≤ ((total + ps - 1) / ps) * ps ∧ ((total + ps - 1) / ps) * ps < total + ps := by
  have h := Nat.div_add_mod (total + ps - 1) ps
  have hm : (total + ps - 1) % ps < ps := Nat.mod_lt _ (by omega)
  have hqm : ((total + ps - 1) / ps) * ps = ps * ((total + ps - 1) / ps) :=
    Nat.mul_comm _ _
  rw [hqm]
  generalize hX : ps * ((total + ps - 1) / ps) = X at h ⊢
  omega

/-- The rounded-up natural division is the rational ceiling of the
division. -/
theorem ceil_div_eq_rat_ceil (total ps : Nat) (hps : 1 ≤ ps) :
    ⌈(total : ℚ) / (ps : ℚ)⌉ = (((total + ps - 1) / ps : Nat) : ℤ) := by
  obtain ⟨hlow, hhigh⟩ := ceil_div_bounds total ps hps
  have hpsq : (0 : ℚ) < (ps : ℚ) := by
    exact_mod_cast Nat.lt_of_lt_of_le Nat.zero_lt_one hps
  set n := (total + ps - 1) / ps with hn
  rw [Int.ceil_eq_iff]
  constructor
  · rw [lt_div_iff₀ hpsq]
    have hcast : (n : ℚ) * (ps : ℚ) < (total : ℚ) + (ps : ℚ) := by exact_mod_cast hhigh
    have hexp : (((n : ℤ) : ℚ) - 1) * (ps : ℚ) = (n : ℚ) * (ps : ℚ) - (ps : ℚ) := by
      push_cast
      ring
    rw [hexp]
    linarith
  · rw [div_le_iff₀ hpsq]
    have hcast : (total : ℚ) ≤ (n : ℚ) * (ps : ℚ) := by exact_mod_cast hlow
    rw [Int.cast_natCast]
    exact hcast

/-- Boolean shuffle isolating the status slot of a where clause. -/
theorem bool_status_shuffle (a b c s e f g : Bool) :
    (a && b && c && s && e && f && g) = ((a && b && c && true && e && f && g) && s) := by
  revert a b c s e f g
  decide

/-- Extending a where clause without status key by a status equality key
conjoins the status equality to its semantics. -/
theorem sem_set_status_eq (w : TodoWhere) (hw : w.status = none) (st : TodoStatus) (r : Todo) :
    TodoWhere.sem { w with status := some (.isEq st) } r
      = (TodoWhere.sem w r && (r.status == st)) := by
  have h1 : condStatus (some (.isEq st)) r.status = (r.status == st) := rfl
  have h2 : condStatus none r.status = true := rfl
  simp only [TodoWhere.sem, hw, h1, h2]
  exact bool_status_shuffle (condEqStr w.id r.id) (condEqStr w.userId r.userId)
    (condEqOptStr w.tenantId r.tenantId) (r.status == st) (condPrio w.priority r.priority)
    (condDue w.dueDate r.dueDate) (condEqOptStr w.todoListId r.todoListId)

/-- Every todo has exactly one of the four statuses, so the four
status-refined counts partition any filtered snapshot. -/
theorem filter_status_partition (p : Todo → Bool) (rows : List Todo) :
    (rows.filter (fun r => p r && (r.status == TodoStatus.COMPLETED))).length
    + (rows.filter (fun r => p r && (r.status == TodoStatus.IN_PROGRESS))).length
    + (rows.filter (fun r => p r && (r.status == TodoStatus.PENDING))).length
    + (rows.filter (fun r => p r && (r.status == TodoStatus.CANCELLED))).length
    = (rows.filter p).length := by
  induction rows with
  | nil => rfl
  | cons r rs ih =>
    cases hp : p r <;> cases hs : r.status <;>
      simp [List.filter_cons, hp, hs] <;> omega

/-- Refining a filter with a further conjunct cannot increase its
length. -/
theorem length_filter_and_le (p q : Todo → Bool) (l : List Todo) :
    (l.filter (fun a => p a && q a)).length ≤ (l.filter p).length := by
  induction l with
  | nil => exact Nat.le_refl 0
  | cons x xs ih =>
    cases hp : p x <;> cases hq : q x <;>
      simp [List.filter_cons, hp, hq] <;> omega

/-- The partition and monotonicity facts for the statistics counts, over
an arbitrary base clause carrying no status key. -/
theorem stats_sum_le (base : TodoWhere) (hbs : base.status = none) (rows : List Todo) :
    ((rows.filter (semOpt todoRepoM (some ({ base with status := some (.isEq .COMPLETED) } : TodoWhere)))).length
     + (rows.filter (semOpt todoRepoM (some ({ base with status := some (.isEq .IN_PROGRESS) } : TodoWhere)))).length
     + (rows.filter (semOpt todoRepoM (some ({ base with status := some (.isEq .PENDING) } : TodoWhere)))).length
     + (rows.filter (semOpt todoRepoM (some ({ base with status := some (.isEq .CANCELLED) } : TodoWhere)))).length
      = (rows.filter (semOpt todoRepoM (some base))).length)
    ∧ (rows.filter (semOpt todoRepoM (some ({ base with status := some (.isEq .COMPLETED) } : TodoWhere)))).length
        ≤ (rows.filter (semOpt todoRepoM (some base))).length := by
  have hpred : ∀ st : TodoStatus,
      semOpt todoRepoM (some ({ base with status := some (.isEq st) } : TodoWhere))
        = (fun r => TodoWhere.sem base r && (r.status == st)) := by
    intro st
    funext r
    exact sem_set_status_eq base hbs st r
  constructor
  · rw [hpred, hpred, hpred, hpred]
    exact filter_status_partition (fun r => TodoWhere.sem base r) rows
  · rw [hpred]
    exact length_filter_and_le (fun r => TodoWhere.sem base r)
      (fun r => r.status == TodoStatus.COMPLETED) rows

/-! Claim theorems. -/

/-- C2: every repository read or count operation (findById, findOne,
findMany, count, findPaginated) hands the store the predicate of the caller
augmented with the equality constraint tenantId = supplied tenant id when
a non-null tenant id is supplied, the augmented predicate being exactly
the other constraints of the caller conjoined with the tenant equality; and
with a null tenant id (the Tenant entity case) the predicate of the caller is
passed through unchanged. -/
theorem claim2_tenant_scoping (w : TodoWhere) (t i : String) (wt : Option TenantWhere) :
    (BaseRepository.findByIdWhere todoRepoM i (some t)
      = some { id := some i, tenantId := some t }) ∧
    (BaseRepository.findOneWhere todoRepoM (some w) (some t)
      = some { w with tenantId := some t }) ∧
    (BaseRepository.findManyWhere todoRepoM (some w) (some t)
      = some { w with tenantId := some t }) ∧
    (BaseRepository.countWhere todoRepoM (some w) (some t)
      = some { w with tenantId := some t }) ∧
    (BaseRepository.findPaginatedWhere todoRepoM (some w) (some t)
      = some { w with tenantId := some t }) ∧
    (∀ r : Todo, TodoWhere.sem { w with tenantId := some t } r
      = (TodoWhere.sem { w with tenantId := none } r && (r.tenantId == some t))) ∧
    (BaseRepository.findByIdWhere tenantRepoM i none = some { id := some i }) ∧
    (BaseRepository.findOneWhere tenantRepoM wt none = wt) ∧
    (BaseRepository.findManyWhere tenantRepoM wt none = wt) ∧
    (BaseRepository.countWhere tenantRepoM wt none = wt) ∧
    (BaseRepository.findPaginatedWhere tenantRepoM wt none = wt) := by
  refine ⟨rfl, rfl, rfl, rfl, rfl, ?_, rfl, rfl, rfl, rfl, rfl⟩
  intro r
  simp only [TodoWhere.sem]
  exact bool_tenant_shuffle (condEqStr w.id r.id) (condEqStr w.userId r.userId)
    (condStatus w.status r.status) (condPrio w.priority r.priority)
    (condDue w.dueDate r.dueDate) (condEqOptStr w.todoListId r.todoListId)
    (r.tenantId == some t)

/-- C9: when the where clause of a caller already carries a tenantId key,
addTenantFilter overwrites it with the supplied tenant id, so the
resulting predicate constrains tenantId to the supplied id and every row
it accepts belongs to that tenant. -/
theorem claim9_tenant_override (w : TodoWhere) (t' t : String) (_hw : w.tenantId = some t') :
    addTenantFilter todoRepoM (some w) (some t) = some { w with tenantId := some t } ∧
    ({ w with tenantId := some t } : TodoWhere).tenantId = some t ∧
    (∀ r : Todo, TodoWhere.sem { w with tenantId := some t } r = true →
      r.tenantId = some t) := by
  refine ⟨rfl, rfl, ?_⟩
  intro r h
  simp only [TodoWhere.sem, Bool.and_eq_true] at h
  obtain ⟨⟨⟨⟨⟨_, hg⟩, _⟩, _⟩, _⟩, _⟩ := h
  simpa [condEqOptStr] using hg

/-- Closed instance of the tenant-override theorem at a concrete clause
carrying tenantId acme, overridden by tenant other. -/
theorem claim9_tenant_override_witness :
    addTenantFilter todoRepoM (some { tenantId := some ("acme") }) (some ("other"))
      = some { tenantId := some ("other") } ∧
    ({ ({ tenantId := some ("acme") } : TodoWhere) with tenantId := some ("other") } : TodoWhere).tenantId
      = some ("other") ∧
    (∀ r : Todo,
      TodoWhere.sem { ({ tenantId := some ("acme") } : TodoWhere) with tenantId := some ("other") } r = true →
      r.tenantId = some ("other")) :=
  claim9_tenant_override { tenantId := some ("acme") } ("acme") ("other") rfl

/-- C3 counterexample: a store holding a single todo t1 of tenant A;
updating or deleting t1 under tenant B fails — but with a plain JS Error
whose message is todo not found, not with the typed NotFoundError the
claim names. -/
theorem claim3_counterexample :
    (BaseRepository.update todoRepoM ("t1") (fun r => r) (some ("B"))
        [{ id := ("t1"), title := ("a"), status := .PENDING, priority := .MEDIUM,
           userId := ("u1"), tenantId := some ("A") }]).1
      = Except.error (AppError.generic ("todo not found")) ∧
    (BaseRepository.delete todoRepoM ("t1") (some ("B"))
        [{ id := ("t1"), title := ("a"), status := .PENDING, priority := .MEDIUM,
           userId := ("u1"), tenantId := some ("A") }]).1
      = Except.error (AppError.generic ("todo not found")) ∧
    AppError.isNotFoundError (AppError.generic ("todo not found")) = false := by
  refine ⟨rfl, rfl, rfl⟩

/-- C3 (amended): for every id and non-null tenant id, update and delete
re-read the target under the tenant-scoped predicate; when no row with
that id exists under that tenant — the id absent from the store entirely,
or present with a different tenantId — the call fails with the plain JS
Error with message model name followed by not found (the same error value
in both cases, so they are indistinguishable to the caller; it is not the
typed NotFoundError), and the store is returned unchanged. -/
theorem claim3_update_delete_scoped (upd : Todo → Todo) (i t : String) (rows : List Todo)
    (h : ∀ r ∈ rows, r.id = i → r.tenantId ≠ some t) :
    BaseRepository.update todoRepoM i upd (some t) rows
      = (Except.error (AppError.generic ("todo not found")), rows) ∧
    BaseRepository.delete todoRepoM i (some t) rows
      = (Except.error (AppError.generic ("todo not found")), rows) := by
  have hfind : rows.find? (semOpt todoRepoM
      (addTenantFilter todoRepoM (some (todoRepoM.idOnly i)) (some t))) = none := by
    rw [List.find?_eq_none]
    intro x hx hsem
    simp only [semOpt, addTenantFilter, todoRepoM, TodoWhere.sem, condEqStr, condEqOptStr,
      condStatus, condPrio, condDue, Bool.and_eq_true, beq_iff_eq] at hsem
    exact h x hx hsem.1.1.1.1.1.1 hsem.1.1.1.1.2
  constructor
  · simp only [BaseRepository.update, hfind]
    rfl
  · simp only [BaseRepository.delete, hfind]
    rfl

/-- Closed instance of the amended update/delete theorem: the store holds
only todo t1 of tenant A, addressed under tenant B. -/
theorem claim3_update_delete_scoped_witness :
    (∀ r ∈ [sampleTodoA], r.id = ("t1") → r.tenantId ≠ some ("B")) ∧
    (BaseRepository.update todoRepoM ("t1") (fun r => r) (some ("B")) [sampleTodoA]
      = (Except.error (AppError.generic ("todo not found")), [sampleTodoA]) ∧
     BaseRepository.delete todoRepoM ("t1") (some ("B")) [sampleTodoA]
      = (Except.error (AppError.generic ("todo not found")), [sampleTodoA])) :=
  ⟨by decide, claim3_update_delete_scoped (fun r => r) ("t1") ("B") [sampleTodoA] (by decide)⟩

/-- C4: the tenant-scoped load with its NotFound outcome behaves as
claimed (cross-tenant access to todo t1 under tenant B yields
NotFoundError, and the owning user reads it back), but the ownership branch
does not fail with Forbidden: with todo t1 of tenant A owned by u1
addressed by user u2 of the same tenant, the service raises the JS
ReferenceError on the unimported ForbiddenError identifier, on read,
update and delete alike. -/
theorem claim4_ownership_reference_bug :
    TodoService.getTodoById ("t1") ("u2") (some ("A")) [sampleTodoA]
      = Except.error (AppError.referenceError ("ForbiddenError")) ∧
    TodoService.updateTodo ("t1") {} ("u2") (some ("A")) [sampleTodoA]
      = (Except.error (AppError.referenceError ("ForbiddenError")), [sampleTodoA]) ∧
    TodoService.deleteTodo ("t1") ("u2") (some ("A")) [sampleTodoA]
      = (Except.error (AppError.referenceError ("ForbiddenError")), [sampleTodoA]) ∧
    TodoService.getTodoById ("t1") ("u1") (some ("B")) [sampleTodoA]
      = Except.error (AppError.notFound ("Todo not found")) ∧
    TodoService.getTodoById ("t1") ("u1") (some ("A")) [sampleTodoA]
      = Except.ok sampleTodoA := by
  refine ⟨rfl, rfl, rfl, rfl, rfl⟩

/-- C1: on a request resolved off the main domain to tenant t, with a
well-formed bearer header, a verifying token and an active user found for
its claimed user id, authentication succeeds (attaching that user)
exactly when the tenantId of the user equals t; when they differ the
middleware answers 403 ForbiddenError and leaves the request as it was,
with no user identity attached. -/
theorem claim1_tenant_match (verify : String → VerifyResult) (users : List User) (req : Req)
    (t h : String) (payload : TokenPayload) (u : User)
    (hmain : req.isMainDomain = false)
    (htid : req.tenantId = some t)
    (huser : req.user = none)
    (hh : req.authHeader = some h)
    (hb : jsStartsWith h ("Bearer ") = true)
    (hv : verify ((jsSplit h (' ')).getD 1 ("")) = .ok payload)
    (hu : users.find? (fun u0 => u0.id == payload.userId && u0.isActive) = some u) :
    (authMiddleware verify users req
        = .next { req with user := some (User.view u), userId := some u.id }
      ↔ u.tenantId = some t) ∧
    (u.tenantId ≠ some t →
      authMiddleware verify users req = .send 403 ("ForbiddenError") req ∧ req.user = none) := by
  have hstep : authMiddleware verify users req =
      (if u.tenantId != some t then .send 403 ("ForbiddenError") req
       else .next { req with user := some (User.view u), userId := some u.id }) := by
    simp only [authMiddleware, hh, hb, hv, hu, hmain, htid, Bool.not_true, Bool.not_false,
      Bool.true_and, Bool.false_eq_true, if_false]
  by_cases hcase : u.tenantId = some t
  · have hok : authMiddleware verify users req
        = .next { req with user := some (User.view u), userId := some u.id } := by
      rw [hstep, hcase]
      simp
    exact ⟨⟨fun _ => hcase, fun _ => hok⟩, fun hne => absurd hcase hne⟩
  · have hkO : authMiddleware verify users req = .send 403 ("ForbiddenError") req := by
      rw [hstep, if_pos (by simpa [bne_iff_ne] using hcase)]
    refine ⟨⟨fun hnext => ?_, fun heq => absurd heq hcase⟩, fun _ => ⟨hkO, huser⟩⟩
    rw [hkO] at hnext
    exact absurd hnext (by simp)

/-- Closed instance of the tenant-match theorem: user u1 of tenant acme
presenting the token tok on a request resolved to tenant acme. -/
theorem claim1_tenant_match_witness :
    sampleReq.isMainDomain = false ∧
    sampleReq.tenantId = some ("acme") ∧
    sampleReq.user = none ∧
    sampleReq.authHeader = some ("Bearer tok") ∧
    jsStartsWith ("Bearer tok") ("Bearer ") = true ∧
    sampleVerify ((jsSplit ("Bearer tok") (' ')).getD 1 ("")) = .ok ({ userId := ("u1") }) ∧
    [sampleUser].find? (fun u0 => u0.id == ({ userId := ("u1") } : TokenPayload).userId && u0.isActive)
      = some sampleUser ∧
    (((authMiddleware sampleVerify [sampleUser] sampleReq
        = .next { sampleReq with user := some (User.view sampleUser), userId := some sampleUser.id })
      ↔ sampleUser.tenantId = some ("acme")) ∧
     (sampleUser.tenantId ≠ some ("acme") →
      authMiddleware sampleVerify [sampleUser] sampleReq = .send 403 ("ForbiddenError") sampleReq ∧
      sampleReq.user = none)) :=
  ⟨rfl, rfl, rfl, rfl, by decide, by decide, by decide,
   claim1_tenant_match sampleVerify [sampleUser] sampleReq ("acme") ("Bearer tok")
     ({ userId := ("u1") }) sampleUser rfl rfl rfl rfl (by decide) (by decide) (by decide)⟩

/-- C5: off the main domain the resolver takes the leftmost dot-separated
hostname label as the candidate subdomain and looks it up requiring
isActive: when the (unique, by the subdomain-uniqueness invariant) active
tenant with that subdomain exists the request proceeds with that tenant
attached and isMainDomain false; when every tenant with that subdomain is
inactive — in particular when none exists — the middleware answers 404
Tenant not found. -/
theorem claim5_tenant_resolution (cfg : AppConfig) (tenants : List Tenant) (req : Req)
    (hmain : isMainHost cfg req.hostname = false) :
    (∀ tn ∈ tenants, tn.subdomain = subdomainOf req.hostname → tn.isActive = true →
      (∀ tn' ∈ tenants, tn'.subdomain = subdomainOf req.hostname → tn'.isActive = true → tn' = tn) →
      tenantMiddleware cfg tenants req
        = .next { req with tenant := some tn, tenantId := some tn.id, isMainDomain := false }) ∧
    ((∀ tn ∈ tenants, tn.subdomain = subdomainOf req.hostname → tn.isActive = false) →
      tenantMiddleware cfg tenants req = .send 404 ("Tenant not found") req) := by
  constructor
  · intro tn hmem hsub hact huniq
    have hfind : tenants.find?
        (fun t => t.subdomain == subdomainOf req.hostname && t.isActive) = some tn := by
      apply find?_eq_some_of_unique hmem
      · simp [hsub, hact]
      · intro b hb hpb
        simp only [Bool.and_eq_true, beq_iff_eq] at hpb
        exact huniq b hb hpb.1 hpb.2
    simp only [tenantMiddleware, hmain, Bool.false_eq_true, if_false, hfind]
  · intro hnone
    have hfind : tenants.find?
        (fun t => t.subdomain == subdomainOf req.hostname && t.isActive) = none := by
      rw [List.find?_eq_none]
      intro x hx hpx
      simp only [Bool.and_eq_true, beq_iff_eq] at hpx
      rw [hnone x hx hpx.1] at hpx
      exact Bool.false_ne_true hpx.2
    simp only [tenantMiddleware, hmain, Bool.false_eq_true, if_false, hfind]

/-- Closed instance of the resolver theorem: the single active tenant
acme resolved from hostname acme.app.com with main domain app.com. -/
theorem claim5_tenant_resolution_witness :
    isMainHost sampleCfg sampleHostReq.hostname = false ∧
    ((∀ tn ∈ [sampleTenant], tn.subdomain = subdomainOf sampleHostReq.hostname → tn.isActive = true →
      (∀ tn' ∈ [sampleTenant], tn'.subdomain = subdomainOf sampleHostReq.hostname → tn'.isActive = true → tn' = tn) →
      tenantMiddleware sampleCfg [sampleTenant] sampleHostReq
        = .next { sampleHostReq with tenant := some tn, tenantId := some tn.id, isMainDomain := false }) ∧
     ((∀ tn ∈ [sampleTenant], tn.subdomain = subdomainOf sampleHostReq.hostname → tn.isActive = false) →
      tenantMiddleware sampleCfg [sampleTenant] sampleHostReq = .send 404 ("Tenant not found") sampleHostReq)) :=
  ⟨by decide, claim5_tenant_resolution sampleCfg [sampleTenant] sampleHostReq (by decide)⟩

/-- C6: with email e free in tenant t, the first registration succeeds
and appends a user whose password is the bcrypt hash and whose role is
USER; an immediately repeated registration of e in t fails with
ConflictError and appends nothing; and a registration of e in a different
tenant in which e is also free succeeds. -/
theorem claim6_registration (hashF : String → String) (id1 id2 id3 : String)
    (e pw nm pw2 nm2 pw3 nm3 t t' : String) (users : List User)
    (hfresh : ∀ u ∈ users, u.email = e → u.tenantId ≠ some t)
    (ht' : t' ≠ t)
    (hfresh' : ∀ u ∈ users, u.email = e → u.tenantId ≠ some t') :
    AuthService.registerUser hashF id1 ⟨e, pw, nm⟩ (some t) users
      = (Except.ok (UserRepository.createRow ⟨e, hashF pw, nm, ("USER")⟩ (some t) id1,
           accessTokenFor (UserRepository.createRow ⟨e, hashF pw, nm, ("USER")⟩ (some t) id1)),
         users ++ [UserRepository.createRow ⟨e, hashF pw, nm, ("USER")⟩ (some t) id1]) ∧
    (UserRepository.createRow ⟨e, hashF pw, nm, ("USER")⟩ (some t) id1).password = hashF pw ∧
    (UserRepository.createRow ⟨e, hashF pw, nm, ("USER")⟩ (some t) id1).role = ("USER") ∧
    (UserRepository.createRow ⟨e, hashF pw, nm, ("USER")⟩ (some t) id1).tenantId = some t ∧
    AuthService.registerUser hashF id2 ⟨e, pw2, nm2⟩ (some t)
        (users ++ [UserRepository.createRow ⟨e, hashF pw, nm, ("USER")⟩ (some t) id1])
      = (Except.error (AppError.conflict ("Email already registered in this organization")),
         users ++ [UserRepository.createRow ⟨e, hashF pw, nm, ("USER")⟩ (some t) id1]) ∧
    AuthService.registerUser hashF id3 ⟨e, pw3, nm3⟩ (some t')
        (users ++ [UserRepository.createRow ⟨e, hashF pw, nm, ("USER")⟩ (some t) id1])
      = (Except.ok (UserRepository.createRow ⟨e, hashF pw3, nm3, ("USER")⟩ (some t') id3,
           accessTokenFor (UserRepository.createRow ⟨e, hashF pw3, nm3, ("USER")⟩ (some t') id3)),
         (users ++ [UserRepository.createRow ⟨e, hashF pw, nm, ("USER")⟩ (some t) id1])
           ++ [UserRepository.createRow ⟨e, hashF pw3, nm3, ("USER")⟩ (some t') id3]) := by
  have h1 : UserRepository.findByEmail e (some t) users = none := findByEmail_eq_none hfresh
  have h1' := h1
  unfold UserRepository.findByEmail BaseRepository.findOne at h1'
  rw [List.find?_eq_none] at h1'
  have h2 : UserRepository.findByEmail e (some t)
      (users ++ [UserRepository.createRow ⟨e, hashF pw, nm, ("USER")⟩ (some t) id1])
      = some (UserRepository.createRow ⟨e, hashF pw, nm, ("USER")⟩ (some t) id1) := by
    unfold UserRepository.findByEmail BaseRepository.findOne
    apply find?_append_singleton h1'
    simp [semOpt, BaseRepository.findOneWhere, addTenantFilter, userRepoM, UserWhere.sem,
      condEqStr, condEqOptStr, condEqBool, UserRepository.createRow]
  have h3 : UserRepository.findByEmail e (some t')
      (users ++ [UserRepository.createRow ⟨e, hashF pw, nm, ("USER")⟩ (some t) id1]) = none := by
    apply findByEmail_eq_none
    intro u hu hmail
    rcases List.mem_append.mp hu with hcase | hcase
    · exact hfresh' u hcase hmail
    · have hu1 : u = UserRepository.createRow ⟨e, hashF pw, nm, ("USER")⟩ (some t) id1 := by
        simpa using hcase
      subst hu1
      simp only [UserRepository.createRow]
      intro heq
      exact ht' (Option.some.inj heq).symm
  refine ⟨?_, rfl, rfl, rfl, ?_, ?_⟩
  · simp only [AuthService.registerUser, h1]
  · simp only [AuthService.registerUser, h2]
  · simp only [AuthService.registerUser, h3]

/-- Closed instance of the registration theorem: email a@x.com registered
into an empty store for tenant acme, then again for acme, then for
other. -/
theorem claim6_registration_witness :
    (∀ u ∈ ([] : List User), u.email = ("a@x.com") → u.tenantId ≠ some ("acme")) ∧
    (("other") : String) ≠ ("acme") ∧
    (∀ u ∈ ([] : List User), u.email = ("a@x.com") → u.tenantId ≠ some ("other")) ∧
    (AuthService.registerUser sampleHash ("i1") ⟨("a@x.com"), ("Secret1"), ("A")⟩ (some ("acme")) []
      = (Except.ok (UserRepository.createRow ⟨("a@x.com"), sampleHash ("Secret1"), ("A"), ("USER")⟩ (some ("acme")) ("i1"),
           accessTokenFor (UserRepository.createRow ⟨("a@x.com"), sampleHash ("Secret1"), ("A"), ("USER")⟩ (some ("acme")) ("i1"))),
         [] ++ [UserRepository.createRow ⟨("a@x.com"), sampleHash ("Secret1"), ("A"), ("USER")⟩ (some ("acme")) ("i1")]) ∧
     (UserRepository.createRow ⟨("a@x.com"), sampleHash ("Secret1"), ("A"), ("USER")⟩ (some ("acme")) ("i1")).password = sampleHash ("Secret1") ∧
     (UserRepository.createRow ⟨("a@x.com"), sampleHash ("Secret1"), ("A"), ("USER")⟩ (some ("acme")) ("i1")).role = ("USER") ∧
     (UserRepository.createRow ⟨("a@x.com"), sampleHash ("Secret1"), ("A"), ("USER")⟩ (some ("acme")) ("i1")).tenantId = some ("acme") ∧
     AuthService.registerUser sampleHash ("i2") ⟨("a@x.com"), ("S2"), ("B")⟩ (some ("acme"))
        ([] ++ [UserRepository.createRow ⟨("a@x.com"), sampleHash ("Secret1"), ("A"), ("USER")⟩ (some ("acme")) ("i1")])
      = (Except.error (AppError.conflict ("Email already registered in this organization")),
         [] ++ [UserRepository.createRow ⟨("a@x.com"), sampleHash ("Secret1"), ("A"), ("USER")⟩ (some ("acme")) ("i1")]) ∧
     AuthService.registerUser sampleHash ("i3") ⟨("a@x.com"), ("S3"), ("C")⟩ (some ("other"))
        ([] ++ [UserRepository.createRow ⟨("a@x.com"), sampleHash ("Secret1"), ("A"), ("USER")⟩ (some ("acme")) ("i1")])
      = (Except.ok (UserRepository.createRow ⟨("a@x.com"), sampleHash ("S3"), ("C"), ("USER")⟩ (some ("other")) ("i3"),
           accessTokenFor (UserRepository.createRow ⟨("a@x.com"), sampleHash ("S3"), ("C"), ("USER")⟩ (some ("other")) ("i3"))),
         ([] ++ [UserRepository.createRow ⟨("a@x.com"), sampleHash ("Secret1"), ("A"), ("USER")⟩ (some ("acme")) ("i1")])
           ++ [UserRepository.createRow ⟨("a@x.com"), sampleHash ("S3"), ("C"), ("USER")⟩ (some ("other")) ("i3")])) :=
  ⟨by simp, by decide, by simp,
   claim6_registration sampleHash ("i1") ("i2") ("i3") ("a@x.com") ("Secret1") ("A")
     ("S2") ("B") ("S3") ("C") ("acme") ("other") []
     (by simp) (by decide) (by simp)⟩

/-- C7: for pages and page sizes at least 1, findPaginated echoes page
and pageSize, reports the exact number of matching rows as total, reports
totalPages as the rational ceiling of total over pageSize, returns the
matching rows in positions (page-1)*pageSize through
(page-1)*pageSize + pageSize - 1, and returns an empty data array for
every page beyond totalPages. -/
theorem claim7_pagination (w : Option TodoWhere) (tid : Option String) (rows : List Todo)
    (page pageSize : Nat) (hp : 1 ≤ page) (hps : 1 ≤ pageSize) :
    (BaseRepository.findPaginated todoRepoM w tid page pageSize rows).pagination.total
      = (BaseRepository.paginatedMatches todoRepoM w tid rows).length ∧
    (BaseRepository.findPaginated todoRepoM w tid page pageSize rows).pagination.page = page ∧
    (BaseRepository.findPaginated todoRepoM w tid page pageSize rows).pagination.pageSize = pageSize ∧
    ((BaseRepository.findPaginated todoRepoM w tid page pageSize rows).pagination.totalPages : ℤ)
      = ⌈((BaseRepository.paginatedMatches todoRepoM w tid rows).length : ℚ) / (pageSize : ℚ)⌉ ∧
    (BaseRepository.findPaginated todoRepoM w tid page pageSize rows).data
      = ((BaseRepository.paginatedMatches todoRepoM w tid rows).drop ((page - 1) * pageSize)).take pageSize ∧
    ((BaseRepository.findPaginated todoRepoM w tid page pageSize rows).pagination.totalPages < page →
      (BaseRepository.findPaginated todoRepoM w tid page pageSize rows).data = []) := by
  refine ⟨rfl, rfl, rfl, ?_, rfl, ?_⟩
  · rw [ceil_div_eq_rat_ceil _ _ hps]
    rfl
  · intro hover
    have hover' : ((BaseRepository.paginatedMatches todoRepoM w tid rows).length + pageSize - 1)
        / pageSize < page := hover
    obtain ⟨hlow, _⟩ := ceil_div_bounds
      (BaseRepository.paginatedMatches todoRepoM w tid rows).length pageSize hps
    have hlen : (BaseRepository.paginatedMatches todoRepoM w tid rows).length
        ≤ (page - 1) * pageSize := by
      calc (BaseRepository.paginatedMatches todoRepoM w tid rows).length
          ≤ (((BaseRepository.paginatedMatches todoRepoM w tid rows).length + pageSize - 1)
              / pageSize) * pageSize := hlow
        _ ≤ (page - 1) * pageSize := Nat.mul_le_mul_right pageSize (by omega)
    show ((BaseRepository.paginatedMatches todoRepoM w tid rows).drop
      ((page - 1) * pageSize)).take pageSize = []
    rw [List.drop_eq_nil_of_le hlen, List.take_nil]

/-- Closed instance of the pagination theorem: page 5 of size 2 over a
single matching row. -/
theorem claim7_pagination_witness :
    (1 : Nat) ≤ 5 ∧ (1 : Nat) ≤ 2 ∧
    ((BaseRepository.findPaginated todoRepoM none none 5 2 [sampleTodoA]).pagination.total
      = (BaseRepository.paginatedMatches todoRepoM none none [sampleTodoA]).length ∧
    (BaseRepository.findPaginated todoRepoM none none 5 2 [sampleTodoA]).pagination.page = 5 ∧
    (BaseRepository.findPaginated todoRepoM none none 5 2 [sampleTodoA]).pagination.pageSize = 2 ∧
    ((BaseRepository.findPaginated todoRepoM none none 5 2 [sampleTodoA]).pagination.totalPages : ℤ)
      = ⌈((BaseRepository.paginatedMatches todoRepoM none none [sampleTodoA]).length : ℚ) / ((2 : Nat) : ℚ)⌉ ∧
    (BaseRepository.findPaginated todoRepoM none none 5 2 [sampleTodoA]).data
      = ((BaseRepository.paginatedMatches todoRepoM none none [sampleTodoA]).drop ((5 - 1) * 2)).take 2 ∧
    ((BaseRepository.findPaginated todoRepoM none none 5 2 [sampleTodoA]).pagination.totalPages < 5 →
      (BaseRepository.findPaginated todoRepoM none none 5 2 [sampleTodoA]).data = [])) :=
  ⟨by decide, by decide,
   claim7_pagination none none [sampleTodoA] 5 2 (by decide) (by decide)⟩

/-- C8 counterexample: a snapshot holding one pending todo of user u1 in
tenant A has total 1 but completionRate 0, so the completion rate is 0
without the total being 0 — the claimed equivalence fails in the
total-nonzero direction. -/
theorem claim8_counterexample :
    (TodoRepository.getStatistics ("u1") (some ("A")) 0 [sampleTodoA]).completionRate = 0 ∧
    (TodoRepository.getStatistics ("u1") (some ("A")) 0 [sampleTodoA]).total = 1 := by
  have h1 : (TodoRepository.getStatistics ("u1") (some ("A")) 0 [sampleTodoA]).total = 1 := by
    decide
  have h2 : (TodoRepository.getStatistics ("u1") (some ("A")) 0 [sampleTodoA]).completed = 0 := by
    decide
  have hrate : (TodoRepository.getStatistics ("u1") (some ("A")) 0 [sampleTodoA]).completionRate
      = if 0 < (TodoRepository.getStatistics ("u1") (some ("A")) 0 [sampleTodoA]).total
        then (((TodoRepository.getStatistics ("u1") (some ("A")) 0 [sampleTodoA]).completed : ℚ)
          / ((TodoRepository.getStatistics ("u1") (some ("A")) 0 [sampleTodoA]).total : ℚ)) * 100
        else 0 := rfl
  refine ⟨?_, h1⟩
  rw [hrate, h1, h2]
  norm_num

/-- C10: for every reset token that verifies with the password-reset
purpose and names an existing user, resetPassword succeeds and replaces
exactly the password of that user with the hash of the new password — the
store lookup is keyed on the userId of the token with no tenant filter, the
controller outcome is identical under every tenant context of the
request, users with a different id pass through unchanged, and the
target user keeps every other field. -/
theorem claim10_reset_password (verify : String → VerifyResult) (hashF : String → String)
    (tok pw : String) (payload : TokenPayload) (users : List User)
    (hv : verify tok = .ok payload)
    (hp : payload.purpose = some ("password-reset"))
    (hex : (users.find? (fun u => u.id == payload.userId)).isSome = true) :
    AuthService.resetPassword verify hashF tok pw users
      = (Except.ok true,
         users.map (fun u => if u.id == payload.userId then { u with password := hashF pw } else u)) ∧
    (∀ tid1 tid2 : Option String,
      resetPasswordHandler verify hashF tid1 tok (some pw) users
        = resetPasswordHandler verify hashF tid2 tok (some pw) users) ∧
    (∀ u ∈ users, u.id ≠ payload.userId →
      u ∈ (AuthService.resetPassword verify hashF tok pw users).2) ∧
    (∀ u ∈ users, u.id = payload.userId →
      ({ u with password := hashF pw } : User)
        ∈ (AuthService.resetPassword verify hashF tok pw users).2) := by
  obtain ⟨u0, hu0⟩ := Option.isSome_iff_exists.mp hex
  have hupd : UserRepository.updatePassword payload.userId (hashF pw) users
      = (Except.ok (),
         users.map (fun u => if u.id == payload.userId then { u with password := hashF pw } else u)) := by
    unfold UserRepository.updatePassword
    rw [hu0]
  have hmain : AuthService.resetPassword verify hashF tok pw users
      = (Except.ok true,
         users.map (fun u => if u.id == payload.userId then { u with password := hashF pw } else u)) := by
    simp only [AuthService.resetPassword, hv, hp, hupd, bne_self_eq_false, Bool.false_eq_true,
      if_false]
  refine ⟨hmain, fun tid1 tid2 => rfl, ?_, ?_⟩
  · intro u hu hne
    rw [hmain]
    have hbeq : (u.id == payload.userId) = false := by simp [hne]
    have hfix : (if u.id == payload.userId then { u with password := hashF pw } else u) = u := by
      rw [hbeq]
      rfl
    exact hfix ▸ List.mem_map_of_mem _ hu
  · intro u hu heq
    rw [hmain]
    have hbeq : (u.id == payload.userId) = true := by simp [heq]
    have hfix : (if u.id == payload.userId then { u with password := hashF pw } else u)
        = ({ u with password := hashF pw } : User) := by
      rw [hbeq]
      rfl
    exact hfix ▸ List.mem_map_of_mem _ hu

/-- Closed instance of the reset theorem: the reset token rtok for user
u1 applied to a store holding only u1. -/
theorem claim10_reset_password_witness :
    sampleResetVerify ("rtok") = .ok ({ userId := ("u1"), purpose := some ("password-reset") }) ∧
    ({ userId := ("u1"), purpose := some ("password-reset") } : TokenPayload).purpose
      = some ("password-reset") ∧
    ([sampleUser].find? (fun u => u.id == ("u1"))).isSome = true ∧
    (AuthService.resetPassword sampleResetVerify sampleHash ("rtok") ("NewPw") [sampleUser]
      = (Except.ok true,
         [sampleUser].map (fun u => if u.id == ("u1") then { u with password := sampleHash ("NewPw") } else u)) ∧
     (∀ tid1 tid2 : Option String,
       resetPasswordHandler sampleResetVerify sampleHash tid1 ("rtok") (some ("NewPw")) [sampleUser]
         = resetPasswordHandler sampleResetVerify sampleHash tid2 ("rtok") (some ("NewPw")) [sampleUser]) ∧
     (∀ u ∈ [sampleUser], u.id ≠ ("u1") →
       u ∈ (AuthService.resetPassword sampleResetVerify sampleHash ("rtok") ("NewPw") [sampleUser]).2) ∧
     (∀ u ∈ [sampleUser], u.id = ("u1") →
       ({ u with password := sampleHash ("NewPw") } : User)
         ∈ (AuthService.resetPassword sampleResetVerify sampleHash ("rtok") ("NewPw") [sampleUser]).2)) :=
  ⟨by decide, rfl, by decide,
   claim10_reset_password sampleResetVerify sampleHash ("rtok") ("NewPw")
     ({ userId := ("u1"), purpose := some ("password-reset") }) [sampleUser]
     (by decide) rfl (by decide)⟩

/-- C8 (amended): for every snapshot, completed plus inProgress plus
pending plus the count of CANCELLED todos equals total; the completion
rate is completed over total times 100 when total is positive and 0 when
total is 0; and the completion rate is 0 exactly when completed is 0
(which is implied by, but does not imply, total being 0). -/
theorem claim8_statistics (uid : String) (tid : Option String) (now : Int) (rows : List Todo) :
    (TodoRepository.getStatistics uid tid now rows).completed
      + (TodoRepository.getStatistics uid tid now rows).inProgress
      + (TodoRepository.getStatistics uid tid now rows).pending
      + TodoRepository.cancelledCount uid tid rows
      = (TodoRepository.getStatistics uid tid now rows).total ∧
    (0 < (TodoRepository.getStatistics uid tid now rows).total →
      (TodoRepository.getStatistics uid tid now rows).completionRate
        = ((TodoRepository.getStatistics uid tid now rows).completed : ℚ)
          / ((TodoRepository.getStatistics uid tid now rows).total : ℚ) * 100) ∧
    ((TodoRepository.getStatistics uid tid now rows).total = 0 →
      (TodoRepository.getStatistics uid tid now rows).completionRate = 0) ∧
    ((TodoRepository.getStatistics uid tid now rows).completionRate = 0
      ↔ (TodoRepository.getStatistics uid tid now rows).completed = 0) := by
  cases tid with
  | none =>
    have core := stats_sum_le { userId := some uid } rfl rows
    have hsum : (TodoRepository.getStatistics uid none now rows).completed
        + (TodoRepository.getStatistics uid none now rows).inProgress
        + (TodoRepository.getStatistics uid none now rows).pending
        + TodoRepository.cancelledCount uid none rows
        = (TodoRepository.getStatistics uid none now rows).total := core.1
    have hle : (TodoRepository.getStatistics uid none now rows).completed
        ≤ (TodoRepository.getStatistics uid none now rows).total := core.2
    have hrate : (TodoRepository.getStatistics uid none now rows).completionRate
        = if 0 < (TodoRepository.getStatistics uid none now rows).total
          then (((TodoRepository.getStatistics uid none now rows).completed : ℚ)
            / ((TodoRepository.getStatistics uid none now rows).total : ℚ)) * 100
          else 0 := rfl
    refine ⟨hsum, fun h => by rw [hrate, if_pos h], fun h => by rw [hrate, if_neg (by omega)], ?_⟩
    constructor
    · intro h0
      by_cases hT : 0 < (TodoRepository.getStatistics uid none now rows).total
      · rw [hrate, if_pos hT] at h0
        have hTq : (0 : ℚ) < ((TodoRepository.getStatistics uid none now rows).total : ℚ) := by
          exact_mod_cast hT
        have hc : ((TodoRepository.getStatistics uid none now rows).completed : ℚ) = 0 := by
          rcases mul_eq_zero.mp h0 with hdiv | h100
          · rcases div_eq_zero_iff.mp hdiv with hc0 | hT0
            · exact hc0
            · exact absurd hT0 (ne_of_gt hTq)
          · norm_num at h100
        exact_mod_cast hc
      · omega
    · intro hc
      by_cases hT : 0 < (TodoRepository.getStatistics uid none now rows).total
      · rw [hrate, if_pos hT, hc]
        norm_num
      · rw [hrate, if_neg hT]
  | some t =>
    have core := stats_sum_le { userId := some uid, tenantId := some t } rfl rows
    have hsum : (TodoRepository.getStatistics uid (some t) now rows).completed
        + (TodoRepository.getStatistics uid (some t) now rows).inProgress
        + (TodoRepository.getStatistics uid (some t) now rows).pending
        + TodoRepository.cancelledCount uid (some t) rows
        = (TodoRepository.getStatistics uid (some t) now rows).total := core.1
    have hle : (TodoRepository.getStatistics uid (some t) now rows).completed
        ≤ (TodoRepository.getStatistics uid (some t) now rows).total := core.2
    have hrate : (TodoRepository.getStatistics uid (some t) now rows).completionRate
        = if 0 < (TodoRepository.getStatistics uid (some t) now rows).total
          then (((TodoRepository.getStatistics uid (some t) now rows).completed : ℚ)
            / ((TodoRepository.getStatistics uid (some t) now rows).total : ℚ)) * 100
          else 0 := rfl
    refine ⟨hsum, fun h => by rw [hrate, if_pos h], fun h => by rw [hrate, if_neg (by omega)], ?_⟩
    constructor
    · intro h0
      by_cases hT : 0 < (TodoRepository.getStatistics uid (some t) now rows).total
      · rw [hrate, if_pos hT] at h0
        have hTq : (0 : ℚ) < ((TodoRepository.getStatistics uid (some t) now rows).total : ℚ) := by
          exact_mod_cast hT
        have hc : ((TodoRepository.getStatistics uid (some t) now rows).completed : ℚ) = 0 := by
          rcases mul_eq_zero.mp h0 with hdiv | h100
          · rcases div_eq_zero_iff.mp hdiv with hc0 | hT0
            · exact hc0
            · exact absurd hT0 (ne_of_gt hTq)
          · norm_num at h100
        exact_mod_cast hc
      · omega
    · intro hc
      by_cases hT : 0 < (TodoRepository.getStatistics uid (some t) now rows).total
      · rw [hrate, if_pos hT, hc]
        norm_num
      · rw [hrate, if_neg hT]

end TodoApp
